import Mathlib

/-!
Verification development for the Portfolio Beta Analysis engine
(`portfolio_beta_calculator.py`, `watchlist_integration.py`).

Numeric values (prices, returns, betas, weights) are modelled as exact
rationals `ℚ`: every Python float is a rational number, and the spec's
properties are stated over idealized real arithmetic.  Trading dates are
modelled as natural numbers; a price series is an ordered list of
`(date, close)` pairs, as supplied by the price-history adapter.
-/

namespace PortfolioBeta

/-- A price series: ordered `(date, closing price)` pairs, one per trading
day, dates strictly increasing (the estimator assumes date uniqueness). -/
abbrev PriceSeries := List (ℕ × ℚ)

/-- The date index of a series (`DataFrame.index`). -/
def dates (s : PriceSeries) : List ℕ := s.map Prod.fst

/-- Price lookup by date (`series.loc[d, 'Close']`); total function,
returning 0 for a date absent from the series (never exercised on the
dates of the series itself). -/
def priceAt (s : PriceSeries) (d : ℕ) : ℚ :=
  ((s.find? (fun p => p.1 = d)).map Prod.snd).getD 0

/-- `stock_data.index.intersection(benchmark_data.index)`: the dates
present in both series, in the (chronological) order of the first. -/
def commonDates (a b : PriceSeries) : List ℕ :=
  (dates a).filter (fun d => (dates b).contains d)

/-- The closing prices of a series at a given list of dates, in order
(`series.loc[common_dates, 'Close']`). -/
def pricesAt (s : PriceSeries) (ds : List ℕ) : List ℚ :=
  ds.map (priceAt s)

/-- `pct_change().dropna()` on a column of (positive) prices: simple
period-over-period percentage changes.  The leading `NaN` produced by
`pct_change` is dropped, so the output has one fewer entry than the
input; on the positive-price domain of the data model no other entry is
`NaN`. -/
def pctChange (ps : List ℚ) : List ℚ :=
  (ps.zip ps.tail).map (fun p => p.2 / p.1 - 1)

/-- The Return Calculator (§4.1), realized in the source as
`pct_change().dropna()` on the `Close` column
(`portfolio_beta_calculator.py`, lines 131-132). -/
def computeReturns (prices : List ℚ) : List ℚ :=
  pctChange prices

/-- Arithmetic mean of a list (`np.mean`); 0 on the empty list. -/
def listMean (l : List ℚ) : ℚ := l.sum / l.length

/-- `np.cov(x, y)[0, 1]` with the numpy default `ddof=1`: the sample
covariance with divisor `N - 1`. -/
def covSample (xy : List (ℚ × ℚ)) : ℚ :=
  let mx := listMean (xy.map Prod.fst)
  let my := listMean (xy.map Prod.snd)
  ((xy.map (fun p => (p.1 - mx) * (p.2 - my))).sum) / (xy.length - 1)

/-- `np.var(x)` with the numpy default `ddof=0`: the population variance
with divisor `N`. -/
def varPop (l : List ℚ) : ℚ :=
  let m := listMean l
  ((l.map (fun x => (x - m) * (x - m))).sum) / l.length

/-- The aligned return sample of `calculate_individual_beta`: returns of
each series over the common price dates, paired up.  The two `pct_change`
columns share the same date index, so the `pd.DataFrame(...).dropna()`
of the source pairs them positionally (no entry is `NaN` on the
positive-price domain). -/
def alignedSample (a b : PriceSeries) : List (ℚ × ℚ) :=
  (pctChange (pricesAt a (commonDates a b))).zip
    (pctChange (pricesAt b (commonDates a b)))

/-- Embeds `PortfolioBetaCalculator.calculate_individual_beta`
(`portfolio_beta_calculator.py`, lines 108-149), the Beta Estimator:
`none` models the Python `None` (undefined beta).  Steps: intersect the
price-date indexes; fail if fewer than 30 common dates; compute both
return columns over the common dates; fail if fewer than 30 aligned
return observations; covariance (`np.cov`, divisor N-1) over benchmark
variance (`np.var`, divisor N), with a literal 0 when the benchmark
variance is zero. -/
def calculate_individual_beta (a b : PriceSeries) : Option ℚ :=
  let common := commonDates a b
  if common.length < 30 then none
  else
    let aligned := alignedSample a b
    if aligned.length < 30 then none
    else
      let covariance := covSample aligned
      let benchmark_variance := varPop (aligned.map Prod.snd)
      some (if benchmark_variance ≠ 0 then covariance / benchmark_variance else 0)

/-- Return series keeping dates (§4.1 of the spec applied to one series on
its own): each return is dated at the later of the two consecutive dates
of that series. -/
def returnSeriesWithDates (s : PriceSeries) : List (ℕ × ℚ) :=
  (s.zip s.tail).map (fun p => (p.2.1, p.2.2 / p.1.2 - 1))

/-- Modelled from the spec: §4.2 steps 1-2 of `estimateBeta`, which the
source does not implement in this order — returns are computed for each
price series independently (over that series' own consecutive dates) and
only then are the dates present in both return series intersected, in
chronological order, to form the aligned sample.  Steps 3-6 are kept
exactly as the source computes them (`minOverlapDays = 30`, `np.cov`
divisor N-1, `np.var` divisor N, literal 0 on zero variance), so that
this definition differs from `calculate_individual_beta` only in the
alignment order that claim C5 describes. -/
def calculate_individual_beta_returnsFirst (a b : PriceSeries) : Option ℚ :=
  let ra := returnSeriesWithDates a
  let rb := returnSeriesWithDates b
  let alignedDates := (dates ra).filter (fun d => (dates rb).contains d)
  let aligned := alignedDates.map (fun d => (priceAt ra d, priceAt rb d))
  if aligned.length < 30 then none
  else
    let covariance := covSample aligned
    let benchmark_variance := varPop (aligned.map Prod.snd)
    some (if benchmark_variance ≠ 0 then covariance / benchmark_variance else 0)

/-! ## Portfolio Aggregator (`calculate_portfolio_beta`, lines 151-192) -/

/-- One holding of the portfolio: `{'shares': ..., 'price_per_share': ...,
'market_value': shares * price_per_share}` as stored by
`add_portfolio_holding`.  Per the data model both components are positive
reals; the derived `market_value` is stored alongside. -/
structure Holding where
  shares : ℚ
  price_per_share : ℚ
deriving DecidableEq

/-- Derived market value of a holding (`shares * price_per_share`). -/
def Holding.market_value (h : Holding) : ℚ := h.shares * h.price_per_share

/-- One entry of the `stock_betas` dict built by
`calculate_portfolio_beta` for a ticker whose beta is defined. -/
structure StockBetaEntry where
  ticker : String
  beta : ℚ
  weight : ℚ
  market_value : ℚ
  shares : ℚ
deriving DecidableEq

/-- The dict returned by `calculate_portfolio_beta`. -/
structure PortfolioBetaResult where
  portfolio_beta : ℚ
  total_portfolio_value : ℚ
  stock_betas : List StockBetaEntry
  num_stocks : ℕ
deriving DecidableEq

/-- `sum(holding['market_value'] for holding in portfolio_holdings.values())`. -/
def totalValue (holdings : List (String × Holding)) : ℚ :=
  (holdings.map (fun p => p.2.market_value)).sum

/-- Embeds `PortfolioBetaCalculator.calculate_portfolio_beta`
(`portfolio_beta_calculator.py`, lines 151-192).  The holdings dict is
modelled as an association list with unique keys; the per-ticker call to
`calculate_individual_beta` is abstracted as the function `betaOf`
(`None` = undefined beta).  Tickers with undefined beta are skipped:
they contribute to `total_value` but not to `stock_betas` nor to the
weighted sum. -/
def calculate_portfolio_beta (holdings : List (String × Holding))
    (betaOf : String → Option ℚ) : Option PortfolioBetaResult :=
  if holdings = [] then none
  else
    let total_value := totalValue holdings
    if total_value = 0 then none
    else
      let stock_betas := holdings.filterMap (fun p =>
        (betaOf p.1).map (fun beta =>
          { ticker := p.1, beta := beta, weight := p.2.market_value / total_value,
            market_value := p.2.market_value, shares := p.2.shares }))
      let portfolio_beta := (stock_betas.map (fun e => e.beta * e.weight)).sum
      some { portfolio_beta := portfolio_beta, total_portfolio_value := total_value,
             stock_betas := stock_betas, num_stocks := stock_betas.length }

/-! ## Risk Classifier (`analyze_portfolio_risk` lines 207-216 and
`WatchlistBetaOptimizer._classify_risk_level` lines 152-167) -/

/-- The risk-classification branch of `analyze_portfolio_risk`
(`portfolio_beta_calculator.py`, lines 207-216): `(risk_level,
risk_description)` as a function of the portfolio beta. -/
def analyze_portfolio_risk_classification (portfolio_beta : ℚ) : String × String :=
  if portfolio_beta < 0.8 then ("Conservative", "Lower volatility than market")
  else if portfolio_beta ≤ 1.2 then ("Moderate", "Similar volatility to market")
  else ("Aggressive", "Higher volatility than market")

/-- Embeds `WatchlistBetaOptimizer._classify_risk_level`
(`watchlist_integration.py`, lines 152-167). -/
def classify_risk_level (beta : ℚ) : String :=
  if beta < 0.8 then "Conservative"
  else if beta ≤ 1.2 then "Moderate"
  else "Aggressive"

/-! ## Watchlist and Recommendation Engine (`watchlist_integration.py`) -/

/-- One entry of the list built by `get_watchlist_with_betas`
(`watchlist_integration.py`, lines 132-142). -/
structure StockEntry where
  ticker : String
  current_price : ℚ
  beta : ℚ
  market_cap : ℚ
  sector : String
  industry : String
  pe_ratio : ℚ
  dividend_yield : ℚ
  risk_level : String
deriving DecidableEq

/-- The per-ticker data the surrounding loop of `get_watchlist_with_betas`
obtains from the external price provider and from
`calculate_individual_beta`: `fetch_ok` models "current data non-empty
and no exception was raised while processing the ticker";
`betaEstimate` is the (possibly `None`) result of
`calculate_individual_beta` for the ticker. -/
structure TickerFetch where
  ticker : String
  fetch_ok : Bool
  current_price : ℚ
  betaEstimate : Option ℚ
  market_cap : ℚ
  sector : String
  industry : String
  pe_ratio : ℚ
  dividend_yield : ℚ
deriving DecidableEq

/-- Embeds `WatchlistBetaOptimizer.get_watchlist_with_betas`
(`watchlist_integration.py`, lines 101-150): tickers whose data fetch
fails are skipped (`continue`); for the rest an entry is built with
`beta = beta if beta is not None else 0` and `risk_level =
_classify_risk_level(beta) if beta is not None else 'Unknown'`. -/
def get_watchlist_with_betas (raw : List TickerFetch) : List StockEntry :=
  raw.filterMap (fun r =>
    if r.fetch_ok then
      some { ticker := r.ticker, current_price := r.current_price,
             beta := r.betaEstimate.getD 0,
             market_cap := r.market_cap, sector := r.sector,
             industry := r.industry, pe_ratio := r.pe_ratio,
             dividend_yield := r.dividend_yield,
             risk_level := match r.betaEstimate with
               | none => "Unknown"
               | some b => classify_risk_level b }
    else none)

/-- Stable insertion step for Python's stable `sorted(l, key=key)`
(ascending): an element is placed before the first element whose key is
not smaller, so elements with equal keys keep their input order. -/
def insertAscBy (key : α → ℚ) (x : α) : List α → List α
  | [] => [x]
  | y :: ys => if key x ≤ key y then x :: y :: ys else y :: insertAscBy key x ys

/-- Python's `sorted(l, key=key)`: stable sort, ascending by key. -/
def sortedAscBy (key : α → ℚ) : List α → List α
  | [] => []
  | x :: xs => insertAscBy key x (sortedAscBy key xs)

/-- Stable insertion step for Python's `sorted(l, key=key, reverse=True)`
(descending): an element is placed before the first element whose key is
not larger, so elements with equal keys keep their input order. -/
def insertDescBy (key : α → ℚ) (x : α) : List α → List α
  | [] => [x]
  | y :: ys => if key y ≤ key x then x :: y :: ys else y :: insertDescBy key x ys

/-- Python's `sorted(l, key=key, reverse=True)`: stable sort, descending
by key. -/
def sortedDescBy (key : α → ℚ) : List α → List α
  | [] => []
  | x :: xs => insertDescBy key x (sortedDescBy key xs)

/-- Embeds `WatchlistBetaOptimizer._calculate_beta_impact`
(`watchlist_integration.py`, lines 244-260). -/
def calculate_beta_impact (stock_beta current_portfolio_beta : ℚ) : String :=
  if current_portfolio_beta < stock_beta then "Will increase portfolio beta"
  else if stock_beta < current_portfolio_beta then "Will decrease portfolio beta"
  else "Will maintain portfolio beta"

/-- Embeds `WatchlistBetaOptimizer._get_recommendation_reason`
(`watchlist_integration.py`, lines 262-290).  The source interpolates the
ticker and the `.2f`-formatted beta into each message; the decimal
rendering of the number is elided here, the branch structure and the
ticker are kept. -/
def get_recommendation_reason (stock : StockEntry) (action : String) : String :=
  if action = "increase" then
    if 1.5 < stock.beta then
      stock.ticker ++ " has high beta - excellent for increasing portfolio volatility"
    else if 1.2 < stock.beta then
      stock.ticker ++ " has moderate-high beta - good for increasing portfolio volatility"
    else
      stock.ticker ++ " has moderate beta - will help increase portfolio volatility"
  else
    if stock.beta < 0.8 then
      stock.ticker ++ " has low beta - excellent for reducing portfolio volatility"
    else if stock.beta < 1.0 then
      stock.ticker ++ " has moderate-low beta - good for reducing portfolio volatility"
    else
      stock.ticker ++ " has moderate beta - will help reduce portfolio volatility"

/-- One entry of the `detailed_recommendations` list
(`watchlist_integration.py`, lines 221-233). -/
structure DetailedRecommendation where
  ticker : String
  current_price : ℚ
  beta : ℚ
  risk_level : String
  sector : String
  industry : String
  market_cap : ℚ
  pe_ratio : ℚ
  dividend_yield : ℚ
  beta_impact : String
  reason : String
deriving DecidableEq

/-- Builds one detailed recommendation from a selected stock (the loop
body at lines 218-233). -/
def mkDetailedRecommendation (current_portfolio_beta : ℚ) (action : String)
    (stock : StockEntry) : DetailedRecommendation :=
  { ticker := stock.ticker, current_price := stock.current_price,
    beta := stock.beta, risk_level := stock.risk_level,
    sector := stock.sector, industry := stock.industry,
    market_cap := stock.market_cap, pe_ratio := stock.pe_ratio,
    dividend_yield := stock.dividend_yield,
    beta_impact := calculate_beta_impact stock.beta current_portfolio_beta,
    reason := get_recommendation_reason stock action }

/-- The three shapes of dict `get_beta_balancing_recommendations` returns:
no eligible candidates (lines 191-195), target already met (lines
200-204), and a ranked plan (lines 235-242).  The first two carry an
informational message built from the shown data and an empty
recommendation list. -/
inductive RecommendationResult where
  | noCandidates : RecommendationResult
  | targetMet (current_beta target_beta : ℚ) : RecommendationResult
  | plan (current_beta target_beta beta_difference : ℚ) (action_needed : String)
      (recommendations : List DetailedRecommendation) : RecommendationResult
deriving DecidableEq

/-- The `'recommendations'` field of each result shape (an empty list in
the two informational shapes). -/
def RecommendationResult.recommendations : RecommendationResult → List DetailedRecommendation
  | .noCandidates => []
  | .targetMet _ _ => []
  | .plan _ _ _ _ recs => recs

/-- Embeds `WatchlistBetaOptimizer.get_beta_balancing_recommendations`
(`watchlist_integration.py`, lines 169-242).  The watchlist data (result
of `get_watchlist_with_betas`) and the portfolio tickers (keys of
`portfolio_holdings`, the exclude set) are passed in; `target_beta =
None` defaults to 1.0. -/
def get_beta_balancing_recommendations (current_portfolio_beta : ℚ)
    (target_beta : Option ℚ) (watchlist_data : List StockEntry)
    (portfolio_tickers : List String) : RecommendationResult :=
  let target := target_beta.getD 1.0
  let available_stocks := watchlist_data.filter
    (fun s => ¬ portfolio_tickers.contains s.ticker)
  if available_stocks = [] then .noCandidates
  else
    let beta_difference := target - current_portfolio_beta
    if |beta_difference| < 0.05 then .targetMet current_portfolio_beta target
    else if 0 < beta_difference then
      .plan current_portfolio_beta target beta_difference "increase"
        (((sortedDescBy StockEntry.beta available_stocks).take 5).map
          (mkDetailedRecommendation current_portfolio_beta "increase"))
    else
      .plan current_portfolio_beta target beta_difference "decrease"
        (((sortedAscBy StockEntry.beta available_stocks).take 5).map
          (mkDetailedRecommendation current_portfolio_beta "decrease"))

/-! ## Helper lemmas -/

theorem pctChange_length (l : List ℚ) : (pctChange l).length = l.length - 1 := by
  simp [pctChange, List.length_zip, List.length_tail]

theorem pricesAt_length (s : PriceSeries) (ds : List ℕ) :
    (pricesAt s ds).length = ds.length := by
  simp [pricesAt]

theorem alignedSample_length (a b : PriceSeries) :
    (alignedSample a b).length = (commonDates a b).length - 1 := by
  simp [alignedSample, List.length_zip, pctChange_length, pricesAt_length]

theorem alignedSample_map_snd (a b : PriceSeries) :
    (alignedSample a b).map Prod.snd = pctChange (pricesAt b (commonDates a b)) := by
  apply List.map_snd_zip
  simp [pctChange_length, pricesAt_length]

theorem pctChange_getD (l : List ℚ) (i : ℕ) (hi : i + 1 < l.length) :
    (pctChange l).getD i 0 = l.getD (i + 1) 0 / l.getD i 0 - 1 := by
  have hi' : i < l.length := Nat.lt_of_succ_lt hi
  have hz : i < (l.zip l.tail).length := by
    simp only [List.length_zip, List.length_tail]
    omega
  simp only [pctChange, List.getD_eq_getElem?_getD, List.getElem?_map,
    List.getElem?_eq_getElem hz, List.getElem_zip, Option.map_some', Option.getD_some,
    List.getElem_tail]
  simp [List.getElem?_eq_getElem hi', List.getElem?_eq_getElem hi]

theorem pctChange_const (l : List ℚ) (c : ℚ) (hc : c ≠ 0)
    (h : ∀ p ∈ l, p = c) : ∀ r ∈ pctChange l, r = 0 := by
  intro r hr
  simp only [pctChange, List.mem_map] at hr
  obtain ⟨⟨x, y⟩, hxy, rfl⟩ := hr
  have hx : x ∈ l := List.of_mem_zip hxy |>.1
  have hy : y ∈ l := List.mem_of_mem_tail (List.of_mem_zip hxy).2
  simp only [h x hx, h y hy]
  rw [div_self hc]
  ring

theorem sum_map_div {α : Type} (l : List α) (g : α → ℚ) (t : ℚ) :
    (l.map (fun a => g a / t)).sum = (l.map g).sum / t := by
  induction l with
  | nil => simp
  | cons a l ih => simp [ih, add_div]

theorem sum_filterMap_le_sum_map {α β : Type} (l : List α) (f : α → Option β)
    (g : α → ℚ) (h : ∀ a ∈ l, 0 ≤ g a) :
    (l.filterMap (fun a => (f a).map (fun _ => g a))).sum ≤ (l.map g).sum := by
  induction l with
  | nil => simp
  | cons a l ih =>
    have ha : 0 ≤ g a := h a (List.mem_cons_self a l)
    have ih' := ih (fun x hx => h x (List.mem_cons_of_mem a hx))
    cases hfa : f a with
    | none =>
      simp only [List.filterMap_cons, hfa, Option.map_none', List.map_cons, List.sum_cons]
      linarith
    | some b =>
      simp only [List.filterMap_cons, hfa, Option.map_some', List.map_cons, List.sum_cons]
      linarith

theorem sum_filterMap_eq_sum_map_iff {α β : Type} (l : List α) (f : α → Option β)
    (g : α → ℚ) (h : ∀ a ∈ l, 0 < g a) :
    (l.filterMap (fun a => (f a).map (fun _ => g a))).sum = (l.map g).sum ↔
      ∀ a ∈ l, (f a).isSome = true := by
  induction l with
  | nil => simp
  | cons a l ih =>
    have ha : 0 < g a := h a (List.mem_cons_self a l)
    have hle := sum_filterMap_le_sum_map l f g
      (fun x hx => le_of_lt (h x (List.mem_cons_of_mem a hx)))
    have ih' := ih (fun x hx => h x (List.mem_cons_of_mem a hx))
    cases hfa : f a with
    | none =>
      simp only [List.filterMap_cons, hfa, Option.map_none', List.map_cons, List.sum_cons]
      constructor
      · intro heq
        exfalso
        linarith
      · intro hall
        have := hall a (List.mem_cons_self a l)
        rw [hfa] at this
        simp at this
    | some b =>
      simp only [List.filterMap_cons, hfa, Option.map_some', List.map_cons, List.sum_cons,
        List.mem_cons]
      constructor
      · intro heq
        intro x hx
        rcases hx with rfl | hx
        · rw [hfa]; rfl
        · exact (ih'.mp (by linarith)) x hx
      · intro hall
        have : (l.filterMap (fun a => (f a).map (fun _ => g a))).sum = (l.map g).sum :=
          ih'.mpr (fun x hx => hall x (Or.inr hx))
        rw [this]

theorem mem_insertAscBy {α : Type} (key : α → ℚ) (x : α) (l : List α) (z : α) :
    z ∈ insertAscBy key x l ↔ z = x ∨ z ∈ l := by
  induction l with
  | nil => simp [insertAscBy]
  | cons y ys ih =>
    by_cases h : key x ≤ key y
    · simp [insertAscBy, h]
    · simp only [insertAscBy, if_neg h, List.mem_cons, ih]
      tauto

theorem mem_sortedAscBy {α : Type} (key : α → ℚ) (l : List α) (z : α) :
    z ∈ sortedAscBy key l ↔ z ∈ l := by
  induction l with
  | nil => simp [sortedAscBy]
  | cons y ys ih =>
    simp [sortedAscBy, mem_insertAscBy, ih]

theorem mem_insertDescBy {α : Type} (key : α → ℚ) (x : α) (l : List α) (z : α) :
    z ∈ insertDescBy key x l ↔ z = x ∨ z ∈ l := by
  induction l with
  | nil => simp [insertDescBy]
  | cons y ys ih =>
    by_cases h : key y ≤ key x
    · simp [insertDescBy, h]
    · simp only [insertDescBy, if_neg h, List.mem_cons, ih]
      tauto

theorem mem_sortedDescBy {α : Type} (key : α → ℚ) (l : List α) (z : α) :
    z ∈ sortedDescBy key l ↔ z ∈ l := by
  induction l with
  | nil => simp [sortedDescBy]
  | cons y ys ih =>
    simp [sortedDescBy, mem_insertDescBy, ih]

theorem pairwise_insertAscBy {α : Type} (key : α → ℚ) (x : α) (l : List α)
    (h : l.Pairwise (fun a b => key a ≤ key b)) :
    (insertAscBy key x l).Pairwise (fun a b => key a ≤ key b) := by
  induction l with
  | nil => simp [insertAscBy]
  | cons y ys ih =>
    rcases List.pairwise_cons.mp h with ⟨hy, hys⟩
    by_cases hxy : key x ≤ key y
    · rw [insertAscBy, if_pos hxy]
      refine List.pairwise_cons.mpr ⟨?_, h⟩
      intro z hz
      rcases List.mem_cons.mp hz with rfl | hz
      · exact hxy
      · exact le_trans hxy (hy z hz)
    · rw [insertAscBy, if_neg hxy]
      refine List.pairwise_cons.mpr ⟨?_, ih hys⟩
      intro z hz
      rcases (mem_insertAscBy key x ys z).mp hz with rfl | hz
      · exact le_of_not_le hxy
      · exact hy z hz

theorem pairwise_sortedAscBy {α : Type} (key : α → ℚ) (l : List α) :
    (sortedAscBy key l).Pairwise (fun a b => key a ≤ key b) := by
  induction l with
  | nil => simp [sortedAscBy]
  | cons y ys ih => exact pairwise_insertAscBy key y (sortedAscBy key ys) ih

theorem pairwise_insertDescBy {α : Type} (key : α → ℚ) (x : α) (l : List α)
    (h : l.Pairwise (fun a b => key b ≤ key a)) :
    (insertDescBy key x l).Pairwise (fun a b => key b ≤ key a) := by
  induction l with
  | nil => simp [insertDescBy]
  | cons y ys ih =>
    rcases List.pairwise_cons.mp h with ⟨hy, hys⟩
    by_cases hxy : key y ≤ key x
    · rw [insertDescBy, if_pos hxy]
      refine List.pairwise_cons.mpr ⟨?_, h⟩
      intro z hz
      rcases List.mem_cons.mp hz with rfl | hz
      · exact hxy
      · exact le_trans (hy z hz) hxy
    · rw [insertDescBy, if_neg hxy]
      refine List.pairwise_cons.mpr ⟨?_, ih hys⟩
      intro z hz
      rcases (mem_insertDescBy key x ys z).mp hz with rfl | hz
      · exact le_of_not_le hxy
      · exact hy z hz

theorem pairwise_sortedDescBy {α : Type} (key : α → ℚ) (l : List α) :
    (sortedDescBy key l).Pairwise (fun a b => key b ≤ key a) := by
  induction l with
  | nil => simp [sortedDescBy]
  | cons y ys ih => exact pairwise_insertDescBy key y (sortedDescBy key ys) ih

theorem filter_insertAscBy {α : Type} (key : α → ℚ) (x : α) (l : List α) (c : ℚ) :
    (insertAscBy key x l).filter (fun z => key z = c) =
      if key x = c then x :: l.filter (fun z => key z = c)
      else l.filter (fun z => key z = c) := by
  induction l with
  | nil =>
    by_cases hx : key x = c <;> simp [insertAscBy, List.filter, hx]
  | cons y ys ih =>
    by_cases hxy : key x ≤ key y
    · rw [insertAscBy, if_pos hxy]
      by_cases hx : key x = c <;> simp [List.filter_cons, hx]
    · rw [insertAscBy, if_neg hxy]
      have hyx : key y < key x := lt_of_not_le hxy
      by_cases hy : key y = c
      · have hx : ¬ key x = c := by rw [← hy]; exact ne_of_gt hyx
        simp [List.filter_cons, hy, hx, ih]
      · simp [List.filter_cons, hy, ih]

theorem filter_sortedAscBy {α : Type} (key : α → ℚ) (l : List α) (c : ℚ) :
    (sortedAscBy key l).filter (fun z => key z = c) =
      l.filter (fun z => key z = c) := by
  induction l with
  | nil => simp [sortedAscBy]
  | cons y ys ih =>
    rw [sortedAscBy, filter_insertAscBy]
    by_cases hy : key y = c <;> simp [List.filter_cons, hy, ih]

theorem filter_insertDescBy {α : Type} (key : α → ℚ) (x : α) (l : List α) (c : ℚ) :
    (insertDescBy key x l).filter (fun z => key z = c) =
      if key x = c then x :: l.filter (fun z => key z = c)
      else l.filter (fun z => key z = c) := by
  induction l with
  | nil =>
    by_cases hx : key x = c <;> simp [insertDescBy, List.filter, hx]
  | cons y ys ih =>
    by_cases hxy : key y ≤ key x
    · rw [insertDescBy, if_pos hxy]
      by_cases hx : key x = c <;> simp [List.filter_cons, hx]
    · rw [insertDescBy, if_neg hxy]
      have hyx : key x < key y := lt_of_not_le hxy
      by_cases hy : key y = c
      · have hx : ¬ key x = c := by rw [← hy]; exact ne_of_lt hyx
        simp [List.filter_cons, hy, hx, ih]
      · simp [List.filter_cons, hy, ih]

theorem filter_sortedDescBy {α : Type} (key : α → ℚ) (l : List α) (c : ℚ) :
    (sortedDescBy key l).filter (fun z => key z = c) =
      l.filter (fun z => key z = c) := by
  induction l with
  | nil => simp [sortedDescBy]
  | cons y ys ih =>
    rw [sortedDescBy, filter_insertDescBy]
    by_cases hy : key y = c <;> simp [List.filter_cons, hy, ih]

/-! ## Concrete inputs used by counterexamples and witnesses -/

/-- A price series over trading dates 0..30 with prices alternating 1, 2:
31 dates, so a self-regression has 31 common dates and an aligned sample
of exactly 30 return observations, all with non-zero variance. -/
def exSelf : PriceSeries :=
  (List.range 31).map (fun t => (t, if t % 2 = 0 then (1 : ℚ) else 2))

/-- A degenerate flat benchmark: constant price 1 over dates 0..30, so
every return is 0 and the benchmark variance over any aligned sample with
`exSelf` is exactly zero. -/
def exFlat : PriceSeries :=
  (List.range 31).map (fun t => (t, (1 : ℚ)))

/-- Asset series for the C5 counterexample: dates 1, 2, 4, 6, ..., 60
(date 1 plus the 30 even dates 2..60), constant price 1. -/
def exStockC5 : PriceSeries :=
  (1, 1) :: (List.range 30).map (fun k => (2 * k + 2, (1 : ℚ)))

/-- Benchmark series for the C5 counterexample: dates 0, 2, 4, ..., 60
(date 0 plus the 30 even dates 2..60), constant price 1.  The common
PRICE dates with `exStockC5` are the 30 even dates, so the source's
alignment yields only 29 return observations and fails; the spec's
alignment (returns first) yields 30 aligned return dates and succeeds. -/
def exBenchC5 : PriceSeries :=
  (0, 1) :: (List.range 30).map (fun k => (2 * k + 2, (1 : ℚ)))

/-! ## Claims -/

/-- C1 counterexample: the claim says a degenerate (zero-variance)
benchmark makes `estimateBeta` return an undefined beta, but on a pair of
series with 30 aligned return observations and a flat benchmark the
source returns the numeric beta 0 (`beta = ... if benchmark_variance != 0
else 0`), not `None`. -/
theorem claim_C1_counterexample :
    30 ≤ (alignedSample exSelf exFlat).length ∧
    varPop ((alignedSample exSelf exFlat).map Prod.snd) = 0 ∧
    calculate_individual_beta exSelf exFlat = some 0 := by
  refine ⟨by decide, ?_, ?_⟩
  · norm_num [alignedSample, commonDates, dates, pricesAt, priceAt, pctChange,
      varPop, listMean, exSelf, exFlat, List.range_succ]
  · norm_num [calculate_individual_beta, alignedSample, commonDates, dates,
      pricesAt, priceAt, pctChange, covSample, varPop, listMean, exSelf, exFlat,
      List.range_succ]

/-- C1 amended: for every pair of price series whose aligned sample meets
the minimum-overlap requirement, if the benchmark variance over the
aligned sample is exactly zero, `calculate_individual_beta` returns the
numeric beta 0 (rather than an undefined beta). -/
theorem claim_C1_degenerate_benchmark (a b : PriceSeries)
    (h1 : 30 ≤ (commonDates a b).length)
    (h2 : 30 ≤ (alignedSample a b).length)
    (hv : varPop ((alignedSample a b).map Prod.snd) = 0) :
    calculate_individual_beta a b = some 0 := by
  simp only [calculate_individual_beta]
  rw [if_neg (by omega : ¬ (commonDates a b).length < 30),
    if_neg (by omega : ¬ (alignedSample a b).length < 30),
    if_neg (not_not_intro hv)]

/-- C1 witness: the amended statement instantiated at the concrete flat
benchmark. -/
theorem claim_C1_degenerate_benchmark_witness :
    calculate_individual_beta exSelf exFlat = some 0 :=
  claim_C1_degenerate_benchmark exSelf exFlat (by decide) (by decide)
    (by norm_num [alignedSample, commonDates, dates, pricesAt, priceAt, pctChange,
      varPop, listMean, exSelf, exFlat, List.range_succ])

/-- C2: the claim (and the spec's testable property) says covariance and
variance use the same unbiased divisor N-1 so a series regressed against
itself has beta exactly 1.  The source uses `np.cov` (default `ddof=1`,
divisor N-1) for the covariance but `np.var` (default `ddof=0`, divisor
N) for the variance, so the self-regression of a 31-date series with 30
aligned return observations yields beta 30/29 ≠ 1. -/
theorem claim_C2_self_beta :
    calculate_individual_beta exSelf exSelf = some (30 / 29) ∧
    (30 : ℚ) / 29 ≠ 1 := by
  constructor
  · norm_num [calculate_individual_beta, alignedSample, commonDates, dates,
      pricesAt, priceAt, pctChange, covSample, varPop, listMean, exSelf,
      List.range_succ]
  · norm_num

/-- C4: with the hard-coded minimum overlap of 30, the estimator returns
an undefined beta exactly when the aligned return sample has fewer than
30 observations, and a numeric beta exactly when it has at least 30
(so exactly 29 aligned observations give `none` and exactly 30 give a
computed value). -/
theorem claim_C4_min_overlap (a b : PriceSeries) :
    (calculate_individual_beta a b = none ↔ (alignedSample a b).length < 30) ∧
    ((calculate_individual_beta a b).isSome = true ↔
      30 ≤ (alignedSample a b).length) := by
  have hlen := alignedSample_length a b
  have key : calculate_individual_beta a b = none ↔ (alignedSample a b).length < 30 := by
    simp only [calculate_individual_beta]
    by_cases h1 : (commonDates a b).length < 30
    · simp only [if_pos h1, true_iff]
      omega
    · by_cases h2 : (alignedSample a b).length < 30
      · simp [h1, h2]
      · simp [h1, h2]
  refine ⟨key, ?_⟩
  rw [Option.isSome_iff_ne_none, ne_eq, key]
  omega

/-- C6: the risk classifier is total and maps every beta to exactly one
tier — Conservative below 0.8, Moderate on the closed interval
[0.8, 1.2] (both boundary values included), Aggressive above 1.2 — and
the classification branch of `analyze_portfolio_risk` agrees with
`_classify_risk_level` of the watchlist optimizer. -/
theorem claim_C6_classifier (beta : ℚ) :
    (classify_risk_level beta = "Conservative" ∨
      classify_risk_level beta = "Moderate" ∨
      classify_risk_level beta = "Aggressive") ∧
    (analyze_portfolio_risk_classification beta).1 = classify_risk_level beta ∧
    (beta < 0.8 → classify_risk_level beta = "Conservative") ∧
    (0.8 ≤ beta → beta ≤ 1.2 → classify_risk_level beta = "Moderate") ∧
    (1.2 < beta → classify_risk_level beta = "Aggressive") := by
  unfold classify_risk_level analyze_portfolio_risk_classification
  by_cases h1 : beta < 0.8
  · refine ⟨by simp [h1], by simp [h1], fun _ => by simp [h1], ?_, ?_⟩
    · intro h _; linarith
    · intro h; linarith
  · by_cases h2 : beta ≤ 1.2
    · refine ⟨by simp [h1, h2], by simp [h1, h2], ?_, fun _ _ => by simp [h1, h2], ?_⟩
      · intro h; exact absurd h h1
      · intro h; linarith
    · refine ⟨by simp [h1, h2], by simp [h1, h2], ?_, ?_, fun _ => by simp [h1, h2]⟩
      · intro h; exact absurd h h1
      · intro _ h; exact absurd h h2

/-- C6 witness: both boundary values land in Moderate. -/
theorem claim_C6_classifier_witness :
    classify_risk_level 0.8 = "Moderate" ∧ classify_risk_level 1.2 = "Moderate" :=
  ⟨(claim_C6_classifier 0.8).2.2.2.1 (le_refl _) (by norm_num),
   (claim_C6_classifier 1.2).2.2.2.1 (by norm_num) (le_refl _)⟩

/-- C9: the Return Calculator yields an empty series on inputs of fewer
than 2 points, exactly n-1 simple arithmetic percentage returns
(`return[i] = price[i+1]/price[i] - 1`) on n points, and all-zero returns
on a constant positive price series.  The positivity hypothesis is the
data-model domain (`PricePoint` prices are positive reals), on which
`dropna` removes only the leading entry. -/
theorem claim_C9_computeReturns (prices : List ℚ) (hpos : ∀ p ∈ prices, 0 < p) :
    (prices.length < 2 → computeReturns prices = []) ∧
    (computeReturns prices).length = prices.length - 1 ∧
    (∀ i, i + 1 < prices.length →
      (computeReturns prices).getD i 0 =
        prices.getD (i + 1) 0 / prices.getD i 0 - 1) ∧
    (∀ c, (∀ p ∈ prices, p = c) → ∀ r ∈ computeReturns prices, r = 0) := by
  refine ⟨?_, pctChange_length prices, fun i hi => pctChange_getD prices i hi, ?_⟩
  · intro h
    match prices with
    | [] => rfl
    | [p] => rfl
    | p :: q :: rest => simp at h; omega
  · intro c hc r hr
    by_cases hcz : c = 0
    · exfalso
      simp only [computeReturns, pctChange, List.mem_map] at hr
      obtain ⟨⟨x, y⟩, hxy, _⟩ := hr
      have hx : x ∈ prices := (List.of_mem_zip hxy).1
      have := hpos x hx
      rw [hc x hx, hcz] at this
      exact lt_irrefl 0 this
    · exact pctChange_const prices c hcz hc r hr

/-- C9 witness: the Return Calculator evaluated on the 3-point series
[1, 2, 4] and on the constant series [2, 2, 2]. -/
theorem claim_C9_computeReturns_witness :
    (computeReturns [(1 : ℚ), 2, 4]).length = 2 ∧
    (computeReturns [(1 : ℚ), 2, 4]).getD 0 0 = 2 / 1 - 1 ∧
    (computeReturns [(1 : ℚ), 2, 4]).getD 1 0 = 4 / 2 - 1 ∧
    (∀ r ∈ computeReturns [(2 : ℚ), 2, 2], r = 0) := by
  have h1 := claim_C9_computeReturns [(1 : ℚ), 2, 4] (by norm_num)
  have h2 := claim_C9_computeReturns [(2 : ℚ), 2, 2] (by norm_num)
  refine ⟨h1.2.1, ?_, ?_, h2.2.2.2 2 (by norm_num)⟩
  · have := h1.2.2.1 0 (by norm_num)
    simpa using this
  · have := h1.2.2.1 1 (by norm_num)
    simpa using this

theorem pricesAt_getD (s : PriceSeries) (ds : List ℕ) (j : ℕ) (hj : j < ds.length) :
    (pricesAt s ds).getD j 0 = priceAt s (ds.getD j 0) := by
  simp [pricesAt, List.getD_eq_getElem?_getD, List.getElem?_map,
    List.getElem?_eq_getElem hj, Option.map_some', Option.getD_some]

/-- C5 counterexample: the claim says the source computes each return
series independently and only then intersects the return dates.  On
`exStockC5`/`exBenchC5` the source (which intersects the PRICE dates
first) has only 29 aligned observations and returns `None`, while the
spec's procedure (returns first, then intersect) has 30 aligned return
dates and returns a computed beta — so the two procedures are not the
same function. -/
theorem claim_C5_counterexample :
    calculate_individual_beta exStockC5 exBenchC5 = none ∧
    (calculate_individual_beta_returnsFirst exStockC5 exBenchC5).isSome = true ∧
    calculate_individual_beta exStockC5 exBenchC5 ≠
      calculate_individual_beta_returnsFirst exStockC5 exBenchC5 := by
  refine ⟨by decide, by decide, by decide⟩

/-- C5 amended: the source intersects the dates of the two PRICE series
first and computes both return columns over that common-date series, so
the i-th aligned return observation relates the price at common date i+1
to the price at common date i of each series — the previous trading day
common to both series, not each series' own previous trading day. -/
theorem claim_C5_alignment (a b : PriceSeries) (i : ℕ)
    (hi : i + 1 < (commonDates a b).length) :
    (alignedSample a b).length = (commonDates a b).length - 1 ∧
    (alignedSample a b).getD i (0, 0) =
      (priceAt a ((commonDates a b).getD (i + 1) 0) /
          priceAt a ((commonDates a b).getD i 0) - 1,
       priceAt b ((commonDates a b).getD (i + 1) 0) /
          priceAt b ((commonDates a b).getD i 0) - 1) := by
  refine ⟨alignedSample_length a b, ?_⟩
  have hlen1 : i < (pctChange (pricesAt a (commonDates a b))).length := by
    rw [pctChange_length, pricesAt_length]; omega
  have hlen2 : i < (pctChange (pricesAt b (commonDates a b))).length := by
    rw [pctChange_length, pricesAt_length]; omega
  have hz : i < (alignedSample a b).length := by
    rw [alignedSample_length]; omega
  have hsplit : (alignedSample a b).getD i (0, 0) =
      ((pctChange (pricesAt a (commonDates a b))).getD i 0,
       (pctChange (pricesAt b (commonDates a b))).getD i 0) := by
    rw [alignedSample] at hz ⊢
    rw [List.getD_eq_getElem?_getD, List.getElem?_eq_getElem hz, Option.getD_some,
      List.getElem_zip, List.getD_eq_getElem?_getD, List.getElem?_eq_getElem hlen1,
      List.getD_eq_getElem?_getD, List.getElem?_eq_getElem hlen2, Option.getD_some,
      Option.getD_some]
  rw [hsplit,
    pctChange_getD _ _ (by rw [pricesAt_length]; exact hi),
    pctChange_getD _ _ (by rw [pricesAt_length]; exact hi),
    pricesAt_getD a _ i (by omega), pricesAt_getD a _ (i + 1) hi,
    pricesAt_getD b _ i (by omega), pricesAt_getD b _ (i + 1) hi]

/-- C5 witness: the alignment characterization instantiated at the first
aligned observation of the `exSelf`/`exFlat` pair. -/
theorem claim_C5_alignment_witness :
    (alignedSample exSelf exFlat).length = (commonDates exSelf exFlat).length - 1 ∧
    (alignedSample exSelf exFlat).getD 0 (0, 0) =
      (priceAt exSelf ((commonDates exSelf exFlat).getD 1 0) /
          priceAt exSelf ((commonDates exSelf exFlat).getD 0 0) - 1,
       priceAt exFlat ((commonDates exSelf exFlat).getD 1 0) /
          priceAt exFlat ((commonDates exSelf exFlat).getD 0 0) - 1) :=
  claim_C5_alignment exSelf exFlat 0 (by decide)

/-- C3: for every non-empty holdings mapping (data model: positive shares
and price per share) with positive total value, the aggregator returns a
result whose portfolio beta is the sum of beta times weight over the
holdings with a defined beta, with weight = market value over the total
market value of ALL holdings; the weights of the included tickers sum to
at most 1, with equality exactly when every holding has a defined beta. -/
theorem claim_C3_aggregation (holdings : List (String × Holding))
    (betaOf : String → Option ℚ) (hne : holdings ≠ [])
    (hpos : ∀ p ∈ holdings, 0 < p.2.shares ∧ 0 < p.2.price_per_share)
    (htot : 0 < totalValue holdings) :
    ∃ res, calculate_portfolio_beta holdings betaOf = some res ∧
      res.total_portfolio_value = totalValue holdings ∧
      res.portfolio_beta = (holdings.filterMap (fun p => (betaOf p.1).map
        (fun beta => beta * (p.2.market_value / totalValue holdings)))).sum ∧
      (res.stock_betas.map StockBetaEntry.weight).sum ≤ 1 ∧
      ((res.stock_betas.map StockBetaEntry.weight).sum = 1 ↔
        ∀ p ∈ holdings, (betaOf p.1).isSome = true) := by
  have hmv : ∀ p ∈ holdings, 0 < p.2.market_value := fun p hp =>
    mul_pos (hpos p hp).1 (hpos p hp).2
  have htne : ¬ totalValue holdings = 0 := ne_of_gt htot
  simp only [calculate_portfolio_beta, if_neg hne, if_neg htne]
  refine ⟨_, rfl, rfl, ?_, ?_, ?_⟩
  · dsimp only
    rw [List.map_filterMap]
    refine congrArg List.sum (List.filterMap_congr ?_)
    intro p _
    cases betaOf p.1 <;> rfl
  all_goals {
    dsimp only
    have hw : ((holdings.filterMap (fun p =>
        (betaOf p.1).map (fun beta =>
          ({ ticker := p.1, beta := beta,
             weight := p.2.market_value / totalValue holdings,
             market_value := p.2.market_value,
             shares := p.2.shares } : StockBetaEntry)))).map
        StockBetaEntry.weight) =
          holdings.filterMap (fun p => (betaOf p.1).map
            (fun _ => p.2.market_value / totalValue holdings)) := by
      rw [List.map_filterMap]
      refine List.filterMap_congr ?_
      intro p _
      cases betaOf p.1 <;> rfl
    have hmsum : (holdings.map
        (fun p => p.2.market_value / totalValue holdings)).sum = 1 := by
      rw [sum_map_div]
      exact div_self htne
    first
    | · rw [hw]
        calc (holdings.filterMap (fun p => (betaOf p.1).map
              (fun _ => p.2.market_value / totalValue holdings))).sum
            ≤ (holdings.map (fun p => p.2.market_value / totalValue holdings)).sum :=
              sum_filterMap_le_sum_map holdings (fun p => betaOf p.1) _
                (fun p hp => div_nonneg (le_of_lt (hmv p hp)) (le_of_lt htot))
          _ = 1 := hmsum
    | · rw [hw, ← hmsum]
        exact sum_filterMap_eq_sum_map_iff holdings (fun p => betaOf p.1) _
          (fun p hp => div_pos (hmv p hp) htot)
  }

/-- Holdings for the C3 witness: the spec's end-to-end scenario, A and B
each 10 shares at price 100. -/
def exHoldings : List (String × Holding) :=
  [("A", ⟨10, 100⟩), ("B", ⟨10, 100⟩)]

/-- Betas for the C3 witness: A has beta 1.5, B has beta 0.5. -/
def exBetaOf : String → Option ℚ :=
  fun t => if t = "A" then some 1.5 else if t = "B" then some 0.5 else none

/-- C3 witness: the aggregation statement instantiated at the spec's
end-to-end scenario. -/
theorem claim_C3_aggregation_witness :
    ∃ res, calculate_portfolio_beta exHoldings exBetaOf = some res ∧
      res.total_portfolio_value = totalValue exHoldings ∧
      res.portfolio_beta = (exHoldings.filterMap (fun p => (exBetaOf p.1).map
        (fun beta => beta * (p.2.market_value / totalValue exHoldings)))).sum ∧
      (res.stock_betas.map StockBetaEntry.weight).sum ≤ 1 ∧
      ((res.stock_betas.map StockBetaEntry.weight).sum = 1 ↔
        ∀ p ∈ exHoldings, (exBetaOf p.1).isSome = true) :=
  claim_C3_aggregation exHoldings exBetaOf (by decide)
    (by
      intro p hp
      simp only [exHoldings, List.mem_cons, List.not_mem_nil, or_false] at hp
      rcases hp with rfl | rfl <;> norm_num)
    (by norm_num [totalValue, exHoldings, Holding.market_value])

/-- C7: the recommendation list has at most 5 entries, every entry comes
from a candidate not excluded by the portfolio tickers, and — outside the
dead-band — the entries are exactly the first 5 eligible candidates
sorted by beta, descending when the target exceeds the current beta and
ascending when it is below; both sorts are stable (they preserve input
order among equal betas, witnessed by the filter identity) and sorted in
the claimed direction (the pairwise conjuncts). -/
theorem claim_C7_ranking (current : ℚ) (target_beta : Option ℚ)
    (watchlist_data : List StockEntry) (portfolio_tickers : List String) :
    (get_beta_balancing_recommendations current target_beta watchlist_data
        portfolio_tickers).recommendations.length ≤ 5 ∧
    (∀ r ∈ (get_beta_balancing_recommendations current target_beta watchlist_data
        portfolio_tickers).recommendations,
      ∃ s ∈ watchlist_data, portfolio_tickers.contains s.ticker = false ∧
        r.ticker = s.ticker ∧ r.beta = s.beta) ∧
    (0.05 ≤ |target_beta.getD 1.0 - current| →
      0 < target_beta.getD 1.0 - current →
      (get_beta_balancing_recommendations current target_beta watchlist_data
          portfolio_tickers).recommendations =
        ((sortedDescBy StockEntry.beta (watchlist_data.filter
            (fun s => ¬ portfolio_tickers.contains s.ticker))).take 5).map
          (mkDetailedRecommendation current "increase")) ∧
    (0.05 ≤ |target_beta.getD 1.0 - current| →
      target_beta.getD 1.0 - current < 0 →
      (get_beta_balancing_recommendations current target_beta watchlist_data
          portfolio_tickers).recommendations =
        ((sortedAscBy StockEntry.beta (watchlist_data.filter
            (fun s => ¬ portfolio_tickers.contains s.ticker))).take 5).map
          (mkDetailedRecommendation current "decrease")) ∧
    (sortedDescBy StockEntry.beta (watchlist_data.filter
        (fun s => ¬ portfolio_tickers.contains s.ticker))).Pairwise
      (fun s t => t.beta ≤ s.beta) ∧
    (sortedAscBy StockEntry.beta (watchlist_data.filter
        (fun s => ¬ portfolio_tickers.contains s.ticker))).Pairwise
      (fun s t => s.beta ≤ t.beta) ∧
    (∀ c : ℚ,
      (sortedDescBy StockEntry.beta (watchlist_data.filter
          (fun s => ¬ portfolio_tickers.contains s.ticker))).filter
        (fun s => s.beta = c) =
        (watchlist_data.filter (fun s => ¬ portfolio_tickers.contains s.ticker)).filter
          (fun s => s.beta = c) ∧
      (sortedAscBy StockEntry.beta (watchlist_data.filter
          (fun s => ¬ portfolio_tickers.contains s.ticker))).filter
        (fun s => s.beta = c) =
        (watchlist_data.filter (fun s => ¬ portfolio_tickers.contains s.ticker)).filter
          (fun s => s.beta = c)) := by
  have hmemb : ∀ (act : String) (srt : List StockEntry),
      (∀ z ∈ srt, z ∈ watchlist_data.filter
          (fun s => ¬ portfolio_tickers.contains s.ticker)) →
      ∀ r ∈ ((srt.take 5).map (mkDetailedRecommendation current act)),
        ∃ s ∈ watchlist_data, portfolio_tickers.contains s.ticker = false ∧
          r.ticker = s.ticker ∧ r.beta = s.beta := by
    intro act srt hsub r hrr
    obtain ⟨s, hs, rfl⟩ := List.mem_map.mp hrr
    have hs2 := hsub s (List.mem_of_mem_take hs)
    obtain ⟨hsw, hpred⟩ := List.mem_filter.mp hs2
    refine ⟨s, hsw, by simpa using hpred, rfl, rfl⟩
  simp only [get_beta_balancing_recommendations]
  by_cases he : watchlist_data.filter (fun s => ¬ portfolio_tickers.contains s.ticker) = []
  · rw [if_pos he]
    rw [he]
    exact ⟨by simp [RecommendationResult.recommendations],
      by simp [RecommendationResult.recommendations],
      fun _ _ => by simp [RecommendationResult.recommendations, sortedDescBy],
      fun _ _ => by simp [RecommendationResult.recommendations, sortedAscBy],
      by simp [sortedDescBy], by simp [sortedAscBy],
      fun c => ⟨by simp [sortedDescBy], by simp [sortedAscBy]⟩⟩
  · rw [if_neg he]
    by_cases hband : |target_beta.getD 1.0 - current| < 0.05
    · rw [if_pos hband]
      refine ⟨by simp [RecommendationResult.recommendations],
        by simp [RecommendationResult.recommendations], ?_, ?_,
        pairwise_sortedDescBy _ _, pairwise_sortedAscBy _ _,
        fun c => ⟨filter_sortedDescBy _ _ _, filter_sortedAscBy _ _ _⟩⟩
      · intro habs _
        exact absurd hband (not_lt.mpr habs)
      · intro habs _
        exact absurd hband (not_lt.mpr habs)
    · rw [if_neg hband]
      by_cases hdir : 0 < target_beta.getD 1.0 - current
      · rw [if_pos hdir]
        refine ⟨?_, ?_, fun _ _ => rfl, ?_,
          pairwise_sortedDescBy _ _, pairwise_sortedAscBy _ _,
          fun c => ⟨filter_sortedDescBy _ _ _, filter_sortedAscBy _ _ _⟩⟩
        · simp only [RecommendationResult.recommendations, List.length_map,
            List.length_take]
          exact min_le_left _ _
        · exact hmemb "increase" _ (fun z hz => (mem_sortedDescBy _ _ _).mp hz)
        · intro _ hneg
          exact absurd hdir (not_lt.mpr (le_of_lt hneg))
      · rw [if_neg hdir]
        refine ⟨?_, ?_, ?_, fun _ _ => rfl,
          pairwise_sortedDescBy _ _, pairwise_sortedAscBy _ _,
          fun c => ⟨filter_sortedDescBy _ _ _, filter_sortedAscBy _ _ _⟩⟩
        · simp only [RecommendationResult.recommendations, List.length_map,
            List.length_take]
          exact min_le_left _ _
        · exact hmemb "decrease" _ (fun z hz => (mem_sortedAscBy _ _ _).mp hz)
        · intro _ hposd
          exact absurd hposd hdir

/-- High-beta candidate for the recommendation witnesses. -/
def exStockX : StockEntry :=
  ⟨"X", 50, 2, 0, "Tech", "Software", 0, 0, "Aggressive"⟩

/-- Mid-beta candidate for the recommendation witnesses. -/
def exStockY : StockEntry :=
  ⟨"Y", 40, 1.8, 0, "Tech", "Hardware", 0, 0, "Aggressive"⟩

/-- Low-beta candidate for the recommendation witnesses. -/
def exStockZ : StockEntry :=
  ⟨"Z", 30, 0.3, 0, "Utilities", "Water", 0, 0, "Conservative"⟩

/-- A candidate already held in the portfolio (excluded). -/
def exStockW : StockEntry :=
  ⟨"W", 20, 3, 0, "Energy", "Oil", 0, 0, "Aggressive"⟩

/-- C7 witness: the spec's end-to-end ranking scenario — candidates X
(beta 2.0), Y (1.8), Z (0.3) plus an excluded holding W, current beta 1,
target 1.5, so candidates are ranked descending X, Y, Z and W never
appears. -/
theorem claim_C7_ranking_witness :
    ((get_beta_balancing_recommendations 1 (some 1.5)
        [exStockX, exStockY, exStockZ, exStockW] ["W"]).recommendations).map
      (fun r => (r.ticker, r.beta)) = [("X", 2), ("Y", 1.8), ("Z", 0.3)] := by
  have h := (claim_C7_ranking 1 (some 1.5) [exStockX, exStockY, exStockZ, exStockW]
    ["W"]).2.2.1 (by rw [Option.getD_some, abs_of_pos] <;> norm_num) (by norm_num)
  rw [h]
  norm_num [exStockX, exStockY, exStockZ, exStockW, sortedDescBy, insertDescBy,
    mkDetailedRecommendation, List.filter]

/-- C8: whenever the eligible candidate pool is non-empty and the target
beta is within the 0.05 dead-band of the current beta, the engine returns
the informational target-already-met result with an empty recommendation
list, regardless of the candidates supplied. -/
theorem claim_C8_deadband (current : ℚ) (target_beta : Option ℚ)
    (watchlist_data : List StockEntry) (portfolio_tickers : List String)
    (hne : watchlist_data.filter (fun s => ¬ portfolio_tickers.contains s.ticker) ≠ [])
    (hband : |target_beta.getD 1.0 - current| < 0.05) :
    get_beta_balancing_recommendations current target_beta watchlist_data
        portfolio_tickers =
      .targetMet current (target_beta.getD 1.0) ∧
    (get_beta_balancing_recommendations current target_beta watchlist_data
        portfolio_tickers).recommendations = [] := by
  have h : get_beta_balancing_recommendations current target_beta watchlist_data
      portfolio_tickers = .targetMet current (target_beta.getD 1.0) := by
    simp only [get_beta_balancing_recommendations]
    rw [if_neg hne, if_pos hband]
  exact ⟨h, by rw [h]; rfl⟩

/-- C8 witness: the dead-band statement instantiated with one eligible
candidate, current beta 1 and target 1. -/
theorem claim_C8_deadband_witness :
    get_beta_balancing_recommendations 1 (some 1) [exStockX] [] =
      .targetMet 1 ((some (1 : ℚ)).getD 1.0) ∧
    (get_beta_balancing_recommendations 1 (some 1) [exStockX] []).recommendations = [] :=
  claim_C8_deadband 1 (some 1) [exStockX] [] (by decide)
    (by norm_num)

/-- Fallback entry for positional access to stock-entry lists. -/
def dummyStock : StockEntry := ⟨"", 0, 0, 0, "", "", 0, 0, ""⟩

/-- C10: a watchlist ticker whose fetch succeeded but whose beta estimate
is undefined still becomes a candidate, reported with beta 0 and risk
tier Unknown; in the decrease direction (target below current by at least
the dead-band) the engine ranks by ascending beta over the eligible
candidates, so in that ranking every beta-0 entry — in particular this
candidate — is placed before every positive-beta candidate. -/
theorem claim_C10_unknown_beta (raw : List TickerFetch)
    (portfolio_tickers : List String) (r : TickerFetch) (hr : r ∈ raw)
    (hok : r.fetch_ok = true) (hnone : r.betaEstimate = none)
    (hexcl : portfolio_tickers.contains r.ticker = false) :
    (∃ e ∈ get_watchlist_with_betas raw,
      e.ticker = r.ticker ∧ e.beta = 0 ∧ e.risk_level = "Unknown") ∧
    (∀ i j,
      i < (sortedAscBy StockEntry.beta ((get_watchlist_with_betas raw).filter
          (fun s => ¬ portfolio_tickers.contains s.ticker))).length →
      j < (sortedAscBy StockEntry.beta ((get_watchlist_with_betas raw).filter
          (fun s => ¬ portfolio_tickers.contains s.ticker))).length →
      ((sortedAscBy StockEntry.beta ((get_watchlist_with_betas raw).filter
          (fun s => ¬ portfolio_tickers.contains s.ticker))).getD i dummyStock).beta = 0 →
      0 < ((sortedAscBy StockEntry.beta ((get_watchlist_with_betas raw).filter
          (fun s => ¬ portfolio_tickers.contains s.ticker))).getD j dummyStock).beta →
      i < j) ∧
    (∀ current target_val : ℚ, target_val - current < 0 →
      0.05 ≤ |target_val - current| →
      get_beta_balancing_recommendations current (some target_val)
          (get_watchlist_with_betas raw) portfolio_tickers =
        .plan current target_val (target_val - current) "decrease"
          (((sortedAscBy StockEntry.beta ((get_watchlist_with_betas raw).filter
              (fun s => ¬ portfolio_tickers.contains s.ticker))).take 5).map
            (mkDetailedRecommendation current "decrease"))) := by
  have hmem : ({ ticker := r.ticker, current_price := r.current_price, beta := 0,
                 market_cap := r.market_cap, sector := r.sector,
                 industry := r.industry, pe_ratio := r.pe_ratio,
                 dividend_yield := r.dividend_yield,
                 risk_level := "Unknown" } : StockEntry) ∈
      get_watchlist_with_betas raw := by
    apply List.mem_filterMap.mpr
    refine ⟨r, hr, ?_⟩
    simp [get_watchlist_with_betas, hok, hnone]
  refine ⟨⟨_, hmem, rfl, rfl, rfl⟩, ?_, ?_⟩
  · intro i j hi hj h0 hj0
    have hpw := pairwise_sortedAscBy StockEntry.beta
      ((get_watchlist_with_betas raw).filter
        (fun s => ¬ portfolio_tickers.contains s.ticker))
    rw [List.pairwise_iff_getElem] at hpw
    rw [List.getD_eq_getElem?_getD, List.getElem?_eq_getElem hi, Option.getD_some] at h0
    rw [List.getD_eq_getElem?_getD, List.getElem?_eq_getElem hj, Option.getD_some] at hj0
    by_contra hij
    push_neg at hij
    rcases Nat.eq_or_lt_of_le hij with heq | hlt
    · subst heq
      rw [h0] at hj0
      exact lt_irrefl 0 hj0
    · have := hpw j i hj hi hlt
      rw [h0] at this
      exact absurd (lt_of_lt_of_le hj0 this) (lt_irrefl 0)
  · intro current target_val hneg hband
    have heavail : ({ ticker := r.ticker, current_price := r.current_price,
                      beta := 0, market_cap := r.market_cap, sector := r.sector,
                      industry := r.industry, pe_ratio := r.pe_ratio,
                      dividend_yield := r.dividend_yield,
                      risk_level := "Unknown" } : StockEntry) ∈
          (get_watchlist_with_betas raw).filter
            (fun s => ¬ portfolio_tickers.contains s.ticker) :=
      List.mem_filter.mpr ⟨hmem, by simpa using hexcl⟩
    have hne := List.ne_nil_of_mem heavail
    simp only [get_beta_balancing_recommendations, Option.getD_some]
    rw [if_neg hne, if_neg (not_lt.mpr hband), if_neg (not_lt.mpr (le_of_lt hneg))]

/-- Watchlist fetch with an undefined beta estimate, for the C10 witness. -/
def exFetchU : TickerFetch := ⟨"UUU", true, 5, none, 0, "S", "I", 0, 0⟩

/-- Watchlist fetch with a defined positive beta, for the C10 witness. -/
def exFetchP : TickerFetch := ⟨"PPP", true, 7, some 1.3, 0, "S", "I", 0, 0⟩

/-- C10 witness: the undefined-beta statement instantiated on a two-ticker
watchlist whose first ticker has no beta estimate. -/
theorem claim_C10_unknown_beta_witness :
    (∃ e ∈ get_watchlist_with_betas [exFetchU, exFetchP],
      e.ticker = exFetchU.ticker ∧ e.beta = 0 ∧ e.risk_level = "Unknown") ∧
    (∀ i j,
      i < (sortedAscBy StockEntry.beta ((get_watchlist_with_betas
          [exFetchU, exFetchP]).filter
          (fun s => ¬ ([] : List String).contains s.ticker))).length →
      j < (sortedAscBy StockEntry.beta ((get_watchlist_with_betas
          [exFetchU, exFetchP]).filter
          (fun s => ¬ ([] : List String).contains s.ticker))).length →
      ((sortedAscBy StockEntry.beta ((get_watchlist_with_betas
          [exFetchU, exFetchP]).filter
          (fun s => ¬ ([] : List String).contains s.ticker))).getD i dummyStock).beta = 0 →
      0 < ((sortedAscBy StockEntry.beta ((get_watchlist_with_betas
          [exFetchU, exFetchP]).filter
          (fun s => ¬ ([] : List String).contains s.ticker))).getD j dummyStock).beta →
      i < j) ∧
    (∀ current target_val : ℚ, target_val - current < 0 →
      0.05 ≤ |target_val - current| →
      get_beta_balancing_recommendations current (some target_val)
          (get_watchlist_with_betas [exFetchU, exFetchP]) [] =
        .plan current target_val (target_val - current) "decrease"
          (((sortedAscBy StockEntry.beta ((get_watchlist_with_betas
              [exFetchU, exFetchP]).filter
              (fun s => ¬ ([] : List String).contains s.ticker))).take 5).map
            (mkDetailedRecommendation current "decrease"))) :=
  claim_C10_unknown_beta [exFetchU, exFetchP] [] exFetchU
    (List.mem_cons_self _ _) rfl rfl rfl

end PortfolioBeta
